import Mathlib

/-!
# News-Flow pipeline: shallow embedding and verification

A shallow embedding of the ingestion/indexing pipeline of `app.py`
(News-Flow repository): the fallback summarizer `simple_summarize`, the
Gemini wrapper `summarize_with_gemini`, the direct article processor
`process_article_directly`, the background fetch loop `news_fetcher`
(deduplication, seen-set compaction, bounded index) and the `/latest`
query endpoint.  External effects (the Gemini API, the sentence
transformer, the NewsAPI feed call, wall-clock time, the iteration order
of a Python `set`) are passed in as explicit oracle parameters; Python
exceptions raised by an external call are modelled with `Except`/`Option`
results.
-/

namespace NewsFlow

/-- Python `str.strip()` whitespace characters: space, tab, newline,
carriage return, vertical tab, form feed. -/
def isPyWs (c : Char) : Bool :=
  c = ' ' || c = '\t' || c = '\n' || c = '\r' || c = '\x0b' || c = '\x0c'

/-- Python `str.strip()` on a character list: drop leading and trailing
whitespace. -/
def stripChars (l : List Char) : List Char :=
  ((l.dropWhile isPyWs).reverse.dropWhile isPyWs).reverse

/-- Python `str.strip()`. -/
def pyStrip (s : String) : String :=
  ⟨stripChars s.data⟩

/-- Python `str.split('.')` on a character list: splits at every `'.'`,
keeping empty fields (so `"".split('.') == ['']` and a trailing dot
produces a trailing empty field). -/
def pySplitDot : List Char → List (List Char)
  | [] => [[]]
  | c :: rest =>
    if c = '.' then [] :: pySplitDot rest
    else
      match pySplitDot rest with
      | [] => [[c]]
      | g :: gs => (c :: g) :: gs

/-- From app.py, `simple_summarize` (lines 159-164): fallback summarization.
`if not text: return ""`; otherwise
`sentences = [s.strip() for s in text.split('.') if s.strip()]` and
`return '. '.join(sentences[:3])`. -/
def simple_summarize (text : String) : String :=
  if text = "" then ""
  else
    let sentences := ((pySplitDot text.data).filter
      (fun s => stripChars s ≠ [])).map stripChars
    ⟨List.intercalate ['.', ' '] (sentences.take 3)⟩

/-- Modelled from the spec (§4.2): "split body text on sentence-ending
periods, trim whitespace, join the first three non-empty sentences with
'. '".  Spec-side reformulation used to check `simple_summarize` by
refinement. -/
def specFallbackSummary (text : String) : String :=
  ⟨List.intercalate ['.', ' ']
    ((((pySplitDot text.data).map stripChars).filter (fun s => s ≠ [])).take 3)⟩

/-- From app.py, `summarize_with_gemini` (lines 142-157).  `gemini` is the
external Gemini API call (`model.generate_content`): `some r` models a
response with text `r`, `none` models a raised exception (caught, yielding
`""`).  The guard `if not GOOGLE_API_KEY or not text: return ""` is the
`hasKey`/empty-text test; a successful response is stripped
(`response.text.strip()`). -/
def summarize_with_gemini (hasKey : Bool) (gemini : String → Option String)
    (text : String) : String :=
  if !hasKey || text = "" then ""
  else
    match gemini text with
    | some r => pyStrip r
    | none => ""

/-- A raw article as returned by the NewsAPI feed (fields read by
`news_fetcher`: `title`, `description`, `url`, `publishedAt`; a missing
field reads as `""` via `article.get(..., "")`). -/
structure RawArticle where
  title : String
  description : String
  url : String
  publishedAt : String
  deriving Repr, DecidableEq

/-- The `article_data` dictionary built by `news_fetcher` (lines 223-230)
and consumed by `process_article_directly`. -/
structure ArticleData where
  title : String
  description : String
  url : String
  publishedAt : String
  fetched_at : String
  deriving Repr, DecidableEq

/-- A `news_item` dictionary stored in the global `news_index`
(lines 187-195). -/
structure NewsItem where
  text : String
  url : String
  title : String
  embedding : List Float
  fetched_at : String
  is_realtime : Bool
  processed_at : String

/-- From app.py, lines 196-200: `news_index.append(news_item)` followed by
`if len(news_index) > 100: news_index.pop(0)` — append at the tail, and
drop the head when the length exceeds 100. -/
def index_insert (item : NewsItem) (idx : List NewsItem) : List NewsItem :=
  if 100 < (idx ++ [item]).length then (idx ++ [item]).drop 1
  else idx ++ [item]

/-- From app.py, `embed_text` (lines 66-73, Pathway pipeline): empty text or
a raised exception from `model.encode` (modelled by `enc` returning
`none`) yields the zero vector `[0.0] * 384`. -/
def embed_text (enc : String → Option (List Float)) (text : String) :
    List Float :=
  if text = "" then List.replicate 384 0.0
  else
    match enc text with
    | some e => e
    | none => List.replicate 384 0.0

/-- From app.py, line 175: `text = f"{title}. {description}".strip()`. -/
def article_text (a : ArticleData) : String :=
  pyStrip (a.title ++ ". " ++ a.description)

/-- From app.py, lines 177-182: the summary used by
`process_article_directly`.  When `len(news_index) % 5 == 0` (the index
length at the time of processing is a multiple of 5) the quality
summarizer is attempted with `summarize_with_gemini(text) or
simple_summarize(text)` (Python `or`: the Gemini result when non-empty,
the fallback otherwise); otherwise only `simple_summarize(text)`. -/
def article_summary (hasKey : Bool) (gemini : String → Option String)
    (idx_len : Nat) (text : String) : String :=
  if idx_len % 5 == 0 then
    if summarize_with_gemini hasKey gemini text ≠ "" then
      summarize_with_gemini hasKey gemini text
    else simple_summarize text
  else simple_summarize text

/-- From app.py, `process_article_directly` (lines 166-204), instrumented to
also report whether `summarize_with_gemini` was invoked (the
`len(news_index) % 5 == 0` branch).  Oracles: `hasKey` = whether
`GOOGLE_API_KEY` is set, `gemini` = the Gemini call, `enc` =
`model.encode` on the summary (`Except.error` models a raised exception,
which the surrounding `try/except` catches, after which the item is NOT
appended), `now` = `datetime.utcnow().isoformat()`.  A falsy (empty)
summary skips insertion. -/
def process_article_directly_t (hasKey : Bool) (gemini : String → Option String)
    (enc : String → Except String (List Float)) (now : String)
    (idx : List NewsItem) (a : ArticleData) : List NewsItem × Bool :=
  if article_summary hasKey gemini idx.length (article_text a) ≠ "" then
    match enc (article_summary hasKey gemini idx.length (article_text a)) with
    | Except.ok e =>
      (index_insert
        { text := article_summary hasKey gemini idx.length (article_text a),
          url := a.url, title := a.title, embedding := e,
          fetched_at := a.fetched_at, is_realtime := true,
          processed_at := now } idx, idx.length % 5 == 0)
    | Except.error _ => (idx, idx.length % 5 == 0)
  else (idx, idx.length % 5 == 0)

/-- The resulting index of `process_article_directly` (the
instrumentation bit dropped). -/
def process_article_directly (hasKey : Bool) (gemini : String → Option String)
    (enc : String → Except String (List Float)) (now : String)
    (idx : List NewsItem) (a : ArticleData) : List NewsItem :=
  (process_article_directly_t hasKey gemini enc now idx a).1

/-- State of the `news_fetcher` background thread: the `seen_urls` set
(kept in admission order — CPython set iteration order is arbitrary, so
compaction takes an explicit enumeration, see `fetcher_pass`) and the
global `news_index`. -/
structure FetchState where
  seen : List String
  index : List NewsItem

/-- The `article_data` dictionary built at lines 223-230 of
`news_fetcher` (`fetched_at` = `current_time`, and the article's own
`title`, `description`, `url`, `publishedAt`, defaulting to `""`). -/
def article_data_of (article : RawArticle) (now : String) : ArticleData :=
  { title := article.title, description := article.description,
    url := article.url, publishedAt := article.publishedAt,
    fetched_at := now }

/-- One article of the `for article in articles` loop of `news_fetcher`
(lines 219-234): `url = article.get("url", "")`;
`if url and url not in seen_urls:` record the url, build `article_data`
and process it directly; otherwise the article is skipped. -/
def fetcher_step (hasKey : Bool) (gemini : String → Option String)
    (enc : String → Except String (List Float)) (now : String)
    (st : FetchState) (article : RawArticle) : FetchState :=
  if article.url ≠ "" && !(st.seen.contains article.url) then
    { seen := st.seen ++ [article.url],
      index := process_article_directly hasKey gemini enc now st.index
        (article_data_of article now) }
  else st

/-- From app.py, `fetch_news` (lines 124-139): no `NEWSAPI_KEY`, or any
exception from the HTTP call (`Except.error`), yields the empty list. -/
def fetch_news (hasNewsKey : Bool)
    (response : Except String (List RawArticle)) : List RawArticle :=
  if !hasNewsKey then []
  else
    match response with
    | Except.ok articles => articles
    | Except.error _ => []

/-- From app.py, line 241: `seen_urls = set(list(seen_urls)[-500:])`.
`iterOrder` is `list(seen_urls)` — the arbitrary iteration order of the
Python set (any enumeration of the seen urls). -/
def compact_seen (iterOrder : List String) : List String :=
  iterOrder.drop (iterOrder.length - 500)

/-- One pass of the `while True` body of `news_fetcher` (lines 213-246):
fetch a batch (empty on failure), run every article through
`fetcher_step`, then compact `seen_urls` when its size exceeds 1000.
`iterOrder` supplies the set's iteration order used by `list(seen_urls)`
at the compaction point. -/
def fetcher_pass (hasKey hasNewsKey : Bool) (gemini : String → Option String)
    (enc : String → Except String (List Float)) (now : String)
    (response : Except String (List RawArticle))
    (iterOrder : List String) (st : FetchState) : FetchState :=
  if 1000 < ((fetch_news hasNewsKey response).foldl
      (fetcher_step hasKey gemini enc now) st).seen.length then
    { seen := compact_seen iterOrder,
      index := ((fetch_news hasNewsKey response).foldl
        (fetcher_step hasKey gemini enc now) st).index }
  else (fetch_news hasNewsKey response).foldl
    (fetcher_step hasKey gemini enc now) st

/-- The two phases of the fetch loop (spec §4.5): fetching a batch, or
sleeping for `FETCH_INTERVAL` seconds. -/
inductive LoopPhase
  | fetching
  | sleeping
  deriving Repr, DecidableEq

/-- One transition of the fetch loop: a fetching pass runs
`fetcher_pass` (whose body is the `try/except` of lines 214-244, so it is
total) and then unconditionally reaches `time.sleep(FETCH_INTERVAL)`
(line 246); when the sleep elapses the loop runs again. -/
def loop_step (hasKey hasNewsKey : Bool) (gemini : String → Option String)
    (enc : String → Except String (List Float)) (now : String)
    (response : Except String (List RawArticle)) (iterOrder : List String) :
    LoopPhase × FetchState → LoopPhase × FetchState
  | (LoopPhase.fetching, st) =>
    (LoopPhase.sleeping,
      fetcher_pass hasKey hasNewsKey gemini enc now response iterOrder st)
  | (LoopPhase.sleeping, st) => (LoopPhase.fetching, st)

/-- From app.py, `latest` endpoint (lines 763-774): return `[]` when the
index is empty, otherwise `news_index[-10:]` (the last 10 items, or all
of them when fewer exist).  Python `l[-10:]` is `drop (length - 10)`. -/
def latest (news_index : List NewsItem) : List NewsItem :=
  if news_index.isEmpty then []
  else news_index.drop (news_index.length - 10)

/-! Concrete inputs used to evaluate the theorems below on closed
instances. -/

/-- An `ArticleData` with the given title and description and fixed
bookkeeping fields. -/
def mkArticleData (title description : String) : ArticleData :=
  { title := title, description := description, url := "u",
    publishedAt := "p", fetched_at := "f" }

/-- A distinct `NewsItem` per natural number (distinct `url`). -/
def mkItem (n : Nat) : NewsItem :=
  { text := "t", url := toString n, title := "", embedding := [],
    fetched_at := "", is_realtime := true, processed_at := "" }

/-- 101 pairwise distinct news items. -/
def xs101 : List NewsItem :=
  (List.range 101).map mkItem

/-- 1001 pairwise distinct urls, in admission order. -/
def seenBig : List String :=
  (List.range 1001).map (fun n => toString n)

/-- A fetch state whose seen-set already holds 1001 urls. -/
def stBig : FetchState :=
  { seen := seenBig, index := [] }

/-- A Gemini oracle that always raises (request fails). -/
def noGemini : String → Option String :=
  fun _ => none

/-- A Gemini oracle that always answers with the text `X`. -/
def constGemini : String → Option String :=
  fun _ => some ("X")

/-- An embedding oracle that always raises. -/
def failEnc : String → Except String (List Float) :=
  fun _ => Except.error ("boom")

/-- An embedding oracle that always succeeds. -/
def okEnc : String → Except String (List Float) :=
  fun _ => Except.ok []

/-- A raw article with url `u1`. -/
def wArticle1 : RawArticle :=
  { title := "t1", description := "d1", url := "u1", publishedAt := "p1" }

/-- A second raw article with the same url `u1`. -/
def wArticle2 : RawArticle :=
  { title := "t2", description := "d2", url := "u1", publishedAt := "p2" }

/-- A raw article whose url field is empty. -/
def wArticleNoUrl : RawArticle :=
  { title := "t3", description := "d3", url := "", publishedAt := "p3" }

/-- The empty fetch state. -/
def wState0 : FetchState :=
  { seen := [], index := [] }

/-- The fetch state after presenting `wArticle1` to the gate. -/
def wStateI : FetchState :=
  ([wArticle1, wArticle2].take 1).foldl
    (fetcher_step false noGemini failEnc ("now")) wState0

/-! Helper lemmas shared by the claim theorems. -/

lemma index_insert_eq (x : NewsItem) (idx : List NewsItem)
    (h : idx.length ≤ 100) :
    index_insert x idx = (idx ++ [x]).drop (idx.length + 1 - 100) := by
  unfold index_insert
  by_cases h1 : idx.length = 100
  · have : 100 < (idx ++ [x]).length := by simp [h1]
    rw [if_pos this, h1]
  · have h2 : ¬ 100 < (idx ++ [x]).length := by simp; omega
    rw [if_neg h2]
    have : idx.length + 1 - 100 = 0 := by omega
    rw [this, List.drop_zero]

lemma mem_index_insert {y x : NewsItem} {idx : List NewsItem}
    (h : y ∈ index_insert x idx) : y ∈ idx ∨ y = x := by
  unfold index_insert at h
  split at h
  · have := List.mem_of_mem_drop h
    simpa using this
  · simpa using h

lemma foldl_index_insert (xs : List NewsItem) :
    ∀ idx : List NewsItem, idx.length ≤ 100 →
      xs.foldl (fun a y => index_insert y a) idx =
        (idx ++ xs).drop (idx.length + xs.length - 100) := by
  induction xs with
  | nil =>
    intro idx h
    simp
    have : idx.length - 100 = 0 := by omega
    rw [this, List.drop_zero]
  | cons x xs ih =>
    intro idx h
    rw [List.foldl_cons, index_insert_eq x idx h]
    have hlen : ((idx ++ [x]).drop (idx.length + 1 - 100)).length
        = (idx.length + 1) - (idx.length + 1 - 100) := by
      rw [List.length_drop]; simp
    have hle100 : ((idx ++ [x]).drop (idx.length + 1 - 100)).length ≤ 100 := by
      rw [hlen]; omega
    rw [ih _ hle100, hlen]
    have happ : (idx ++ [x]).drop (idx.length + 1 - 100) ++ xs
        = ((idx ++ [x]) ++ xs).drop (idx.length + 1 - 100) :=
      (List.drop_append_of_le_length (by simp; omega)).symm
    rw [happ, List.drop_drop]
    have harr : (idx ++ [x]) ++ xs = idx ++ x :: xs := by simp
    rw [harr]
    congr 1
    simp only [List.length_cons]
    omega

lemma process_t_snd (hk : Bool) (g : String → Option String)
    (enc : String → Except String (List Float)) (now : String)
    (idx : List NewsItem) (a : ArticleData) :
    (process_article_directly_t hk g enc now idx a).2
      = (idx.length % 5 == 0) := by
  unfold process_article_directly_t
  split
  · split <;> rfl
  · rfl

lemma process_article_directly_cases (hk : Bool) (g : String → Option String)
    (enc : String → Except String (List Float)) (now : String)
    (idx : List NewsItem) (a : ArticleData) :
    process_article_directly hk g enc now idx a = idx ∨
    ∃ s e, s ≠ "" ∧ enc s = Except.ok e ∧
      process_article_directly hk g enc now idx a =
        index_insert { text := s, url := a.url, title := a.title,
                       embedding := e, fetched_at := a.fetched_at,
                       is_realtime := true, processed_at := now } idx := by
  unfold process_article_directly process_article_directly_t
  split
  case isTrue hs =>
    split
    case h_1 e heq => exact Or.inr ⟨_, e, hs, heq, rfl⟩
    case h_2 _ _ => exact Or.inl rfl
  case isFalse hs => exact Or.inl rfl

lemma process_article_fail (hk : Bool) (g : String → Option String)
    (enc : String → Except String (List Float)) (now msg : String)
    (idx : List NewsItem) (a : ArticleData)
    (hfail : ∀ s, enc s = Except.error msg) :
    process_article_directly hk g enc now idx a = idx := by
  rcases process_article_directly_cases hk g enc now idx a with h | ⟨s, e, _, henc, _⟩
  · exact h
  · rw [hfail s] at henc
    exact Except.noConfusion henc

lemma fetcher_step_seen (hasKey : Bool) (gemini : String → Option String)
    (enc : String → Except String (List Float)) (now : String)
    (st : FetchState) (a : RawArticle) :
    (fetcher_step hasKey gemini enc now st a).seen =
      if a.url ≠ "" ∧ a.url ∉ st.seen then st.seen ++ [a.url]
      else st.seen := by
  unfold fetcher_step
  by_cases h1 : a.url = ""
  · simp [h1]
  · by_cases h2 : a.url ∈ st.seen
    · simp [h1, h2]
    · simp [h1, h2]

lemma fetcher_step_of_mem (hasKey : Bool) (gemini : String → Option String)
    (enc : String → Except String (List Float)) (now : String)
    (st : FetchState) (a : RawArticle) (h : a.url ∈ st.seen) :
    fetcher_step hasKey gemini enc now st a = st := by
  unfold fetcher_step
  simp [h]

lemma seen_mem_foldl (hasKey : Bool) (gemini : String → Option String)
    (enc : String → Except String (List Float)) (now : String)
    (articles : List RawArticle) :
    ∀ (s0 : FetchState) (x : String),
      x ∈ (articles.foldl (fetcher_step hasKey gemini enc now) s0).seen ↔
        x ∈ s0.seen ∨ (x ≠ "" ∧ ∃ a ∈ articles, a.url = x) := by
  induction articles with
  | nil => intro s0 x; simp
  | cons a l ih =>
    intro s0 x
    rw [List.foldl_cons, ih]
    have hseen := fetcher_step_seen hasKey gemini enc now s0 a
    by_cases hgate : a.url ≠ "" ∧ a.url ∉ s0.seen
    · rw [if_pos hgate] at hseen
      rw [hseen]
      simp only [List.mem_append, List.mem_cons, List.not_mem_nil, or_false]
      constructor
      · rintro ((h | h) | ⟨hx, b, hb, hbe⟩)
        · exact Or.inl h
        · exact Or.inr ⟨h ▸ hgate.1, a, Or.inl rfl, h.symm⟩
        · exact Or.inr ⟨hx, b, Or.inr hb, hbe⟩
      · rintro (h | ⟨hx, b, hb | hb, hbe⟩)
        · exact Or.inl (Or.inl h)
        · exact Or.inl (Or.inr (hb ▸ hbe.symm))
        · exact Or.inr ⟨hx, b, hb, hbe⟩
    · rw [if_neg hgate] at hseen
      rw [hseen]
      push_neg at hgate
      constructor
      · rintro (h | ⟨hx, b, hb, hbe⟩)
        · exact Or.inl h
        · exact Or.inr ⟨hx, b, List.mem_cons_of_mem a hb, hbe⟩
      · rintro (h | ⟨hx, b, hb, hbe⟩)
        · exact Or.inl h
        · rcases List.mem_cons.mp hb with hb' | hb'
          · subst hb'
            subst hbe
            exact Or.inl (hgate (fun hc => hx hc))
          · exact Or.inr ⟨hx, b, hb', hbe⟩

/-- C1: the index never holds more than 100 items — each insertion
appends at the tail and drops the head when the length would exceed 100
(`index_insert` preserves `length ≤ 100`), and after inserting 101
distinct items into an empty index the result is exactly the last 100
items in insertion order (`xs.drop 1`), with the first-inserted item
absent. -/
theorem c1_bounded_index_capacity (x : NewsItem) (idx : List NewsItem)
    (xs : List NewsItem) (hidx : idx.length ≤ 100) (hxs : xs.length = 101)
    (hnd : xs.Nodup) :
    (index_insert x idx).length ≤ 100 ∧
    xs.foldl (fun a y => index_insert y a) [] = xs.drop 1 ∧
    ∀ a ∈ xs.take 1, a ∉ xs.foldl (fun a y => index_insert y a) [] := by
  have hfold : xs.foldl (fun a y => index_insert y a) [] = xs.drop 1 := by
    rw [foldl_index_insert xs [] (by simp)]
    simp [hxs]
  refine ⟨?_, hfold, ?_⟩
  · rw [index_insert_eq x idx hidx, List.length_drop]
    simp
    omega
  · intro a ha
    rw [hfold]
    cases xs with
    | nil => simp at hxs
    | cons y ys =>
      simp only [List.take_succ_cons, List.take_zero, List.mem_cons,
        List.not_mem_nil, or_false] at ha
      subst ha
      rw [List.drop_one]
      exact (List.nodup_cons.mp hnd).1

/-- C1 witness: inserting the 101 distinct items `xs101` into the empty
index yields `xs101.drop 1`. -/
theorem c1_bounded_index_capacity_witness :
    ([] : List NewsItem).length ≤ 100 ∧ xs101.length = 101 ∧ xs101.Nodup ∧
    xs101.foldl (fun a y => index_insert y a) [] = xs101.drop 1 := by
  have hnd : xs101.Nodup := List.Nodup.of_map NewsItem.url (by decide)
  exact ⟨by decide, by decide, hnd,
    (c1_bounded_index_capacity (mkItem 0) [] xs101 (by decide) (by decide)
      hnd).2.1⟩

/-- C6: the local fallback summarizer agrees, on every input string, with
the spec's description (first three non-empty whitespace-trimmed
period-separated sentences joined with a period and space; empty output
on empty input), and on the body `A. B. C. D.` it returns `A. B. C`. -/
theorem c6_simple_summarize_spec :
    (∀ text : String, simple_summarize text = specFallbackSummary text) ∧
    simple_summarize ("A. B. C. D.") = "A. B. C" ∧
    simple_summarize ("") = "" := by
  refine ⟨?_, by decide, rfl⟩
  intro text
  by_cases h : text = ""
  · subst h; rfl
  · unfold simple_summarize specFallbackSummary
    rw [if_neg h, List.filter_map]
    rfl

/-- C9: the `/latest` endpoint returns the last 10 items of the index
(all of them when fewer than 10 exist, none when it is empty), in
insertion order (it is a suffix of the index), and the index itself is
not modified (the query is a pure function of the index). -/
theorem c9_latest_query (idx : List NewsItem) :
    latest idx = idx.drop (idx.length - 10) ∧
    (latest idx).length = min idx.length 10 ∧
    (latest idx).IsSuffix idx ∧
    latest [] = [] := by
  have heq : latest idx = idx.drop (idx.length - 10) := by
    unfold latest
    by_cases h : idx.isEmpty
    · rw [if_pos h]
      rw [List.isEmpty_iff] at h
      subst h; rfl
    · rw [if_neg h]
  refine ⟨heq, ?_, ?_, rfl⟩
  · rw [heq, List.length_drop]; omega
  · rw [heq]; exact List.drop_suffix _ _

/-- C10: an article whose url field is empty (or missing, which reads as
empty) is skipped entirely: the fetcher step leaves the whole state —
seen-set and index — unchanged. -/
theorem c10_empty_url_skipped (hk : Bool) (g : String → Option String)
    (enc : String → Except String (List Float)) (now : String)
    (st : FetchState) (a : RawArticle) (h : a.url = "") :
    fetcher_step hk g enc now st a = st ∧
    (fetcher_step hk g enc now st a).seen = st.seen ∧
    (fetcher_step hk g enc now st a).index = st.index := by
  have h1 : fetcher_step hk g enc now st a = st := by
    unfold fetcher_step
    simp [h]
  exact ⟨h1, by rw [h1], by rw [h1]⟩

/-- C10 witness: the url-less article `wArticleNoUrl` leaves the empty
fetch state unchanged. -/
theorem c10_empty_url_skipped_witness :
    wArticleNoUrl.url = "" ∧
    fetcher_step false noGemini failEnc ("now") wState0 wArticleNoUrl
      = wState0 :=
  ⟨rfl, (c10_empty_url_skipped false noGemini failEnc ("now") wState0
    wArticleNoUrl rfl).1⟩

/-- C2: the deduplication gate admits an identifier (nonempty url not in
the seen-set: it is then recorded and processed) exactly on its first
presentation — the gate is open at step `i` iff the url is nonempty, not
in the initial seen-set, and not presented earlier — admission appends
the url to the seen-set, re-presentation of a seen url leaves the state
unchanged, and any identifier still in the seen-set (in particular the
window retained by a compaction) is rejected on re-presentation. -/
theorem c2_dedup_admit_once (hk : Bool) (g : String → Option String)
    (enc : String → Except String (List Float)) (now : String)
    (s0 : FetchState) (articles : List RawArticle) (i : Nat)
    (hi : i < articles.length) :
    (((articles.get ⟨i, hi⟩).url ≠ "" ∧
        (articles.get ⟨i, hi⟩).url ∉
          ((articles.take i).foldl (fetcher_step hk g enc now) s0).seen) ↔
      ((articles.get ⟨i, hi⟩).url ≠ "" ∧
        (articles.get ⟨i, hi⟩).url ∉ s0.seen ∧
        ∀ a ∈ articles.take i, a.url ≠ (articles.get ⟨i, hi⟩).url)) ∧
    ((articles.get ⟨i, hi⟩).url ≠ "" →
      (articles.get ⟨i, hi⟩).url ∉
        ((articles.take i).foldl (fetcher_step hk g enc now) s0).seen →
      (fetcher_step hk g enc now
          ((articles.take i).foldl (fetcher_step hk g enc now) s0)
          (articles.get ⟨i, hi⟩)).seen =
        ((articles.take i).foldl (fetcher_step hk g enc now) s0).seen
          ++ [(articles.get ⟨i, hi⟩).url]) ∧
    ((articles.get ⟨i, hi⟩).url ∈
        ((articles.take i).foldl (fetcher_step hk g enc now) s0).seen →
      fetcher_step hk g enc now
          ((articles.take i).foldl (fetcher_step hk g enc now) s0)
          (articles.get ⟨i, hi⟩) =
        (articles.take i).foldl (fetcher_step hk g enc now) s0) ∧
    (∀ (st' : FetchState) (b : RawArticle), b.url ∈ st'.seen →
      fetcher_step hk g enc now st' b = st') := by
  have hmem := seen_mem_foldl hk g enc now (articles.take i) s0
    (articles.get ⟨i, hi⟩).url
  refine ⟨?_, ?_, ?_, ?_⟩
  · constructor
    · rintro ⟨hne, hnm⟩
      rw [hmem] at hnm
      push_neg at hnm
      exact ⟨hne, hnm.1, fun a ha => hnm.2 hne a ha⟩
    · rintro ⟨hne, hs0, hnot⟩
      refine ⟨hne, ?_⟩
      rw [hmem]
      push_neg
      exact ⟨hs0, fun _ => hnot⟩
  · intro hne hnm
    rw [fetcher_step_seen, if_pos ⟨hne, hnm⟩]
  · intro hmem'
    exact fetcher_step_of_mem _ _ _ _ _ _ hmem'
  · intro st' b hb
    exact fetcher_step_of_mem _ _ _ _ _ _ hb

/-- C2 witness: presenting the url `u1` a second time (article
`wArticle2` after `wArticle1`) is rejected: the state is unchanged. -/
theorem c2_dedup_admit_once_witness :
    (1 < ([wArticle1, wArticle2] : List RawArticle).length) ∧
    ([wArticle1, wArticle2].get ⟨1, by decide⟩).url ∈ wStateI.seen ∧
    fetcher_step false noGemini failEnc ("now") wStateI
      ([wArticle1, wArticle2].get ⟨1, by decide⟩) = wStateI := by
  refine ⟨by decide, by decide, ?_⟩
  exact (c2_dedup_admit_once false noGemini failEnc ("now") wState0
    [wArticle1, wArticle2] 1 (by decide)).2.2.1 (by decide)

set_option maxRecDepth 100000 in
/-- C3 counterexample: the compaction `seen_urls =
set(list(seen_urls)[-500:])` keeps the last 500 elements of the set's
arbitrary iteration order, not the 500 most recently admitted
identifiers.  With 1001 admitted urls and the (legitimate) iteration
order `seenBig.reverse`, the compacted set differs from the last-500
window: the oldest identifier `0` is retained and the newest `1000` is
discarded — the opposite of the claimed policy. -/
theorem c3_compaction_counterexample :
    List.Perm seenBig.reverse stBig.seen ∧
    1000 < stBig.seen.length ∧
    (fetcher_pass false false noGemini failEnc ("now") (Except.ok [])
      seenBig.reverse stBig).seen ≠
        stBig.seen.drop (stBig.seen.length - 500) ∧
    "0" ∈ (fetcher_pass false false noGemini failEnc ("now") (Except.ok [])
      seenBig.reverse stBig).seen ∧
    "1000" ∉ (fetcher_pass false false noGemini failEnc ("now") (Except.ok [])
      seenBig.reverse stBig).seen := by
  refine ⟨List.reverse_perm seenBig, by decide, by decide, by decide,
    by decide⟩

set_option maxRecDepth 8000 in
/-- C3 amended: when the seen-set size exceeds 1000 at the end of a
pass, it is compacted to exactly 500 identifiers, all drawn from the
current seen-set (and the index is untouched); which 500 survive depends
on the set's arbitrary iteration order, not on insertion order. -/
theorem c3_compaction_amended (hk hnk : Bool) (g : String → Option String)
    (enc : String → Except String (List Float)) (now : String)
    (response : Except String (List RawArticle)) (iterOrder : List String)
    (st : FetchState)
    (hperm : List.Perm iterOrder
      ((fetch_news hnk response).foldl (fetcher_step hk g enc now) st).seen)
    (hlen : 1000 <
      ((fetch_news hnk response).foldl
        (fetcher_step hk g enc now) st).seen.length) :
    (fetcher_pass hk hnk g enc now response iterOrder st).seen.length = 500 ∧
    (∀ x ∈ (fetcher_pass hk hnk g enc now response iterOrder st).seen,
      x ∈ ((fetch_news hnk response).foldl
        (fetcher_step hk g enc now) st).seen) ∧
    (fetcher_pass hk hnk g enc now response iterOrder st).index =
      ((fetch_news hnk response).foldl
        (fetcher_step hk g enc now) st).index := by
  have hpass : fetcher_pass hk hnk g enc now response iterOrder st =
      { seen := compact_seen iterOrder,
        index := ((fetch_news hnk response).foldl
          (fetcher_step hk g enc now) st).index } := by
    unfold fetcher_pass
    rw [if_pos hlen]
  rw [hpass]
  refine ⟨?_, ?_, rfl⟩
  · show (compact_seen iterOrder).length = 500
    unfold compact_seen
    rw [List.length_drop, hperm.length_eq]
    omega
  · intro x hx
    exact hperm.mem_iff.mp (List.mem_of_mem_drop hx)

set_option maxRecDepth 100000 in
/-- C3 amended witness: compacting the 1001-url state `stBig` yields a
seen-set of exactly 500 identifiers. -/
theorem c3_compaction_amended_witness :
    List.Perm seenBig.reverse
      ((fetch_news false (Except.ok [])).foldl
        (fetcher_step false noGemini failEnc ("now")) stBig).seen ∧
    1000 < ((fetch_news false (Except.ok [])).foldl
      (fetcher_step false noGemini failEnc ("now")) stBig).seen.length ∧
    (fetcher_pass false false noGemini failEnc ("now") (Except.ok [])
      seenBig.reverse stBig).seen.length = 500 := by
  have hperm : List.Perm seenBig.reverse
      ((fetch_news false (Except.ok [])).foldl
        (fetcher_step false noGemini failEnc ("now")) stBig).seen :=
    List.reverse_perm seenBig
  have hlen : 1000 < ((fetch_news false (Except.ok [])).foldl
      (fetcher_step false noGemini failEnc ("now")) stBig).seen.length := by
    decide
  exact ⟨hperm, hlen,
    (c3_compaction_amended false false noGemini failEnc ("now")
      (Except.ok []) seenBig.reverse stBig hperm hlen).1⟩

/-- C4: the quality (Gemini) summarizer is attempted first exactly when
the index length at the time of processing is a multiple of 5 (the
0-indexed position the item would occupy); at every other position it is
never called — the instrumentation bit is false and the result does not
depend on the Gemini oracle (nor on the API key) at all. -/
theorem c4_summarizer_selector (hk1 hk2 : Bool)
    (g1 g2 : String → Option String)
    (enc : String → Except String (List Float)) (now : String)
    (idx1 idx2 : List NewsItem) (a : ArticleData)
    (h1 : idx1.length % 5 = 0) (h2 : idx2.length % 5 ≠ 0) :
    (process_article_directly_t hk1 g1 enc now idx1 a).2 = true ∧
    (process_article_directly_t hk1 g1 enc now idx2 a).2 = false ∧
    process_article_directly hk1 g1 enc now idx2 a =
      process_article_directly hk2 g2 enc now idx2 a := by
  refine ⟨?_, ?_, ?_⟩
  · rw [process_t_snd]
    simp [h1]
  · rw [process_t_snd]
    simp [h2]
  · have h2' : (idx2.length % 5 == 0) = false := by simpa using h2
    unfold process_article_directly process_article_directly_t article_summary
    simp only [h2', Bool.false_eq_true, if_false]

/-- C4 witness: at position 0 the Gemini call is attempted; at position 1
it is not, and two different Gemini oracles give the same result. -/
theorem c4_summarizer_selector_witness :
    ([] : List NewsItem).length % 5 = 0 ∧
    ([mkItem 0] : List NewsItem).length % 5 ≠ 0 ∧
    (process_article_directly_t true constGemini okEnc ("now") []
      (mkArticleData ("T") ("D"))).2 = true ∧
    (process_article_directly_t true constGemini okEnc ("now") [mkItem 0]
      (mkArticleData ("T") ("D"))).2 = false ∧
    process_article_directly true constGemini okEnc ("now") [mkItem 0]
      (mkArticleData ("T") ("D")) =
      process_article_directly false noGemini okEnc ("now") [mkItem 0]
        (mkArticleData ("T") ("D")) := by
  have h := c4_summarizer_selector true false constGemini noGemini okEnc
    ("now") [] [mkItem 0] (mkArticleData ("T") ("D")) (by decide) (by decide)
  exact ⟨by decide, by decide, h.1, h.2.1, h.2.2⟩

/-- C5 counterexample: an article with empty title AND empty body does
not necessarily produce an empty summary — the combined text is `"."`
(not empty), so at a position where the quality summarizer is attempted
(index length 0) with a configured key, a non-empty Gemini answer `X` is
inserted into the index: the index is NOT left unchanged. -/
theorem c5_empty_article_counterexample :
    (process_article_directly true constGemini okEnc ("now") []
      (mkArticleData ("") (""))).map NewsItem.text = ["X"] ∧
    process_article_directly true constGemini okEnc ("now") []
      (mkArticleData ("") ("")) ≠ [] := by
  constructor
  · rfl
  · intro h
    exact absurd (congrArg List.length h) (by decide)

/-- C5 amended: every item the processor inserts has non-empty summary
text (the invariant "all index entries have non-empty text" is
preserved); an article whose computed summary is empty leaves the index
unchanged; and for an article with empty title and body the summary is
empty — hence the article dropped — whenever the quality summarizer is
not attempted (position not a multiple of 5) or yields the empty string
(no key, failure, or an empty answer). -/
theorem c5_nonempty_summary_amended (hk : Bool) (g : String → Option String)
    (enc : String → Except String (List Float)) (now : String)
    (idx : List NewsItem) (a : ArticleData)
    (hinv : ∀ it ∈ idx, it.text ≠ "") :
    (∀ it ∈ process_article_directly hk g enc now idx a, it.text ≠ "") ∧
    (article_summary hk g idx.length (article_text a) = "" →
      process_article_directly hk g enc now idx a = idx) ∧
    (a.title = "" → a.description = "" →
      (idx.length % 5 ≠ 0 ∨ summarize_with_gemini hk g (".") = "") →
      process_article_directly hk g enc now idx a = idx) := by
  have hdrop : article_summary hk g idx.length (article_text a) = "" →
      process_article_directly hk g enc now idx a = idx := by
    intro hsum
    unfold process_article_directly process_article_directly_t
    simp [hsum]
  refine ⟨?_, hdrop, ?_⟩
  · intro it hit
    rcases process_article_directly_cases hk g enc now idx a with
      h | ⟨s, e, hs, _, h⟩
    · rw [h] at hit
      exact hinv it hit
    · rw [h] at hit
      rcases mem_index_insert hit with h1 | h1
      · exact hinv it h1
      · subst h1
        simpa using hs
  · intro ht hd hcase
    apply hdrop
    have htext : article_text a = "." := by
      unfold article_text
      rw [ht, hd]
      rfl
    rw [htext]
    unfold article_summary
    rcases hcase with h5 | hg
    · have h5' : (idx.length % 5 == 0) = false := by simpa using h5
      simp only [h5', Bool.false_eq_true, if_false]
      decide
    · by_cases h5 : (idx.length % 5 == 0) = true
      · simp only [h5, if_true, hg]
        simp only [ne_eq, not_true_eq_false, if_false, if_true]
        decide
      · simp only [Bool.not_eq_true] at h5
        simp only [h5, Bool.false_eq_true, if_false]
        decide

/-- C5 amended witness: a fallback-summarized article keeps the
nonempty-text invariant, and the all-empty article is dropped when no
quality summarizer is available. -/
theorem c5_nonempty_summary_amended_witness :
    (∀ it ∈ ([] : List NewsItem), it.text ≠ "") ∧
    (∀ it ∈ process_article_directly false noGemini okEnc ("now") []
      (mkArticleData ("T") ("Body")), it.text ≠ "") ∧
    process_article_directly false noGemini okEnc ("now") []
      (mkArticleData ("") ("")) = [] := by
  have h1 := c5_nonempty_summary_amended false noGemini okEnc ("now") []
    (mkArticleData ("T") ("Body")) (by simp)
  have h2 := c5_nonempty_summary_amended false noGemini okEnc ("now") []
    (mkArticleData ("") ("")) (by simp)
  exact ⟨by simp, h1.1, h2.2.2 rfl rfl (Or.inr rfl)⟩

/-- C7 (code bug): in `process_article_directly` an article whose
summary is non-empty (here `Alpha. Beta gamma`) is nonetheless DROPPED —
the index is unchanged — when the embedding call raises, because
`model.encode` at line 186 is not wrapped in the zero-vector fallback:
the blanket `try/except` catches the exception before the append.  The
repository's own Pathway-path embedder `embed_text` (lines 66-73) shows
the intended behavior: a raised exception yields the zero vector of
length 384 instead of blocking admission. -/
theorem c7_embedding_failure_drops_item :
    article_summary false noGemini 0
      (article_text (mkArticleData ("Alpha") ("Beta gamma")))
      = "Alpha. Beta gamma" ∧
    process_article_directly false noGemini failEnc ("now") []
      (mkArticleData ("Alpha") ("Beta gamma")) = [] ∧
    embed_text (fun _ => none) ("Alpha. Beta gamma")
      = List.replicate 384 0.0 := by
  exact ⟨by decide, rfl, rfl⟩

/-- C8: one pass of the fetch loop is a total function that
unconditionally transitions Fetching to Sleeping (and the sleep back to
Fetching with the state intact — the loop runs again); a failed feed
call yields the empty batch, and a pass over a failed feed equals a pass
over an empty batch; a failing item (embedder always raising) leaves the
index unchanged while the fold still proceeds over the remaining
articles of the batch. -/
theorem c8_fetch_loop_isolation (hk hnk : Bool) (g : String → Option String)
    (enc : String → Except String (List Float)) (now msg : String)
    (response : Except String (List RawArticle)) (iterOrder : List String)
    (st : FetchState) (a : RawArticle)
    (hfail : ∀ s, enc s = Except.error msg) :
    (loop_step hk hnk g enc now response iterOrder
      (LoopPhase.fetching, st)).1 = LoopPhase.sleeping ∧
    (loop_step hk hnk g enc now response iterOrder
      (LoopPhase.fetching, st)).2 =
        fetcher_pass hk hnk g enc now response iterOrder st ∧
    loop_step hk hnk g enc now response iterOrder (LoopPhase.sleeping, st)
      = (LoopPhase.fetching, st) ∧
    fetch_news hnk (Except.error msg) = [] ∧
    fetcher_pass hk hnk g enc now (Except.error msg) iterOrder st =
      fetcher_pass hk hnk g enc now (Except.ok []) iterOrder st ∧
    (fetcher_step hk g enc now st a).index = st.index ∧
    (∀ (pre post : List RawArticle),
      (pre ++ a :: post).foldl (fetcher_step hk g enc now) st =
        post.foldl (fetcher_step hk g enc now)
          (fetcher_step hk g enc now
            (pre.foldl (fetcher_step hk g enc now) st) a)) := by
  refine ⟨rfl, rfl, rfl, ?_, ?_, ?_, ?_⟩
  · cases hnk <;> rfl
  · have hfeed : fetch_news hnk (Except.error msg) =
        fetch_news hnk (Except.ok ([] : List RawArticle)) := by
      cases hnk <;> rfl
    unfold fetcher_pass
    rw [hfeed]
  · unfold fetcher_step
    split
    · show process_article_directly hk g enc now st.index
        (article_data_of a now) = st.index
      exact process_article_fail hk g enc now msg st.index
        (article_data_of a now) hfail
    · rfl
  · intro pre post
    rw [List.foldl_append, List.foldl_cons]

/-- C8 witness: with the always-failing embedder, a fetching step still
transitions to sleeping and a failing article leaves the index
unchanged. -/
theorem c8_fetch_loop_isolation_witness :
    (∀ s, failEnc s = Except.error ("boom")) ∧
    (loop_step false false noGemini failEnc ("now") (Except.ok []) []
      (LoopPhase.fetching, wState0)).1 = LoopPhase.sleeping ∧
    (fetcher_step false noGemini failEnc ("now") wState0 wArticle1).index
      = wState0.index := by
  have h := c8_fetch_loop_isolation false false noGemini failEnc ("now")
    ("boom") (Except.ok []) [] wState0 wArticle1 (fun _ => rfl)
  exact ⟨fun _ => rfl, h.1, h.2.2.2.2.2.1⟩

end NewsFlow
